import Mathlib

set_option maxRecDepth 4000

/-!
Shallow embedding of the daydreams conversation/memory layer and content
processing pipeline: `ConversationManager`
(`packages/core/src/core/conversation-manager.ts`), `MasterProcessor`
(`packages/core/src/core/processors/master-processor.ts`) and the
`Consciousness` autonomous loop.

Modelling conventions: JavaScript objects with open string keys appear as
association lists written in insertion order, whose later bindings shadow
earlier ones (object-literal / spread semantics); JS `Date` values appear as
natural numbers and `toISOString` as `Nat.repr`; every external asynchronous
call (vector store read/write, inference backend) is an explicit outcome
parameter of `Except` type, so a thrown error is an `Except.error` value and
a function that never throws is a total function into a non-`Except` type.
-/

/-- JS object lookup over an association list written in insertion order:
the LAST binding of a key wins, matching object-literal and spread
semantics. -/
def objGet : List (String × String) → String → Option String
  | [], _ => none
  | (k, v) :: rest, key =>
    match objGet rest key with
    | some w => some w
    | none => if k = key then some v else none

/-- JS `a || b` on possibly-absent strings: the empty string is falsy. -/
def jsOrStr : Option String → Option String → Option String
  | some s, b => if s = "" then b else some s
  | none, b => b

/-- Modelled from the spec: the identity scheme
`deriveConversationId(platform, platformLocalId)`, implemented by
`Conversation.createDeterministicId` (the `Conversation` entity's source
file is not part of this extract).  The spec requires a pure, deterministic
function that is collision-resistant across the (platform, id) space, so
the model realises it as an injective encoding: a unary length prefix for
the platform, a separator, then the platform and the local id. -/
def Conversation.createDeterministicId (platform platformId : String) : String :=
  String.mk (List.replicate platform.length '*') ++ ":" ++ platform ++ platformId

/-- Modelled from the spec: one timestamped content item belonging to a
conversation, with an open metadata mapping. -/
structure Memory where
  id : String
  conversationId : String
  content : String
  timestamp : Nat
  metadata : List (String × String)
deriving DecidableEq, Repr

/-- Modelled from the spec: the in-memory `Conversation` entity — metadata
plus the (partially) hydrated, append-ordered memory log. -/
structure Conversation where
  id : String
  platformId : String
  platform : String
  name : Option String
  description : Option String
  participants : Option (List String)
  createdAt : Nat
  lastActive : Nat
  memories : List Memory
deriving DecidableEq, Repr

/-- The optional metadata bag accepted by the `Conversation` constructor and
by `createConversation` (`Partial<ConversationMetadata & (userId)>`). -/
structure ConversationCtorMeta where
  name : Option String
  description : Option String
  participants : Option (List String)
  createdAt : Option Nat
  lastActive : Option Nat
  userId : Option String
deriving DecidableEq, Repr

/-- Modelled from the spec: the `Conversation` constructor derives the
stable id from (platform, platformId) via the identity scheme and starts
with an empty memory log; absent timestamps default to the construction
time. -/
def Conversation.new (platformId platform : String) (meta : ConversationCtorMeta)
    (now : Nat) : Conversation :=
  { id := Conversation.createDeterministicId platform platformId
    platformId := platformId
    platform := platform
    name := meta.name
    description := meta.description
    participants := meta.participants
    createdAt := meta.createdAt.getD now
    lastActive := meta.lastActive.getD (meta.createdAt.getD now)
    memories := [] }

/-- Modelled from the spec: `Conversation.addMemory` appends a freshly
identified, timestamped memory to the in-memory log and returns it; the
fresh memory id and the current time are explicit arguments of the
embedding. -/
def Conversation.addMemory (c : Conversation) (content : String)
    (metadata : List (String × String)) (newId : String) (now : Nat) :
    Conversation × Memory :=
  let m : Memory :=
    { id := newId, conversationId := c.id, content := content
      timestamp := now, metadata := metadata }
  ({ c with memories := c.memories ++ [m] }, m)

/-- Modelled from the spec: `Conversation.loadMemories` bulk-hydrates the
log, replacing any prior in-memory log. -/
def Conversation.loadMemories (c : Conversation) (ms : List Memory) : Conversation :=
  { c with memories := ms }

/-- One content item as returned by the store adapter's list operation. -/
structure StoredMemory where
  content : String
  metadata : List (String × String)
deriving DecidableEq, Repr

/-- The store's per-namespace metadata record (`collection.metadata`);
every field may be absent. -/
structure NamespaceMeta where
  description : Option String
  conversationId : Option String
  platform : Option String
  platformId : Option String
  created : Option Nat
  lastActive : Option Nat
  name : Option String
  participants : Option (List String)
  userId : Option String
deriving DecidableEq, Repr

/-- Modelled from the spec: the persistent store's namespace map (the
`ChromaVectorDB` adapter itself is an external collaborator consumed
through the narrow interface of §6). -/
structure VectorStore where
  namespaces : List (String × NamespaceMeta)
deriving DecidableEq, Repr

def lookupNs : List (String × NamespaceMeta) → String → Option NamespaceMeta
  | [], _ => none
  | (k, v) :: rest, key => if k = key then some v else lookupNs rest key

def upsertNs : List (String × NamespaceMeta) → String → NamespaceMeta →
    List (String × NamespaceMeta)
  | [], key, v => [(key, v)]
  | (k, w) :: rest, key, v =>
    if k = key then (k, v) :: rest else (k, w) :: upsertNs rest key v

def emptyStore : VectorStore := { namespaces := [] }

/-- Mirror of JS `new Date(m.metadata?.timestamp)` under the embedding's
numeric timestamps (serialized with `Nat.repr`); an unparsable or absent
value degenerates to 0 (JS `Invalid Date`). -/
def parseTime (s : Option String) : Nat :=
  (s.bind String.toNat?).getD 0

/-- `getConversation`'s per-item hydration: the stored `memoryId` (or `id`)
metadata becomes the memory id, the stored timestamp is re-parsed. -/
def formatStoredMemory (conversationId : String) (m : StoredMemory) : Memory :=
  { id := (jsOrStr (objGet m.metadata "memoryId") (objGet m.metadata "id")).getD ""
    conversationId := conversationId
    content := m.content
    timestamp := parseTime (objGet m.metadata "timestamp")
    metadata := m.metadata }

/-- The identity-validation prefix of `ConversationManager.getConversation`:
the namespace must exist and its `platform` / `platformId` metadata must be
JS-truthy (`!metadata?.platform || !metadata?.platformId` fails soft),
otherwise the conversation is treated as not found. -/
def resolveMeta (db : VectorStore) (conversationId : String) :
    Option (String × String × NamespaceMeta) :=
  match lookupNs db.namespaces conversationId with
  | none => none
  | some md =>
    match md.platform, md.platformId with
    | some platform, some platformId =>
      if platform = "" ∨ platformId = "" then none
      else some (platform, platformId, md)
    | some _, none => none
    | none, _ => none

/-- `ConversationManager.getConversation`: fails soft (returns `none`) when
no store is configured, the namespace is missing, or the required metadata
fields are missing; on success reconstructs the `Conversation` and
best-effort hydrates its memories — `memLoad` is the outcome of the
`vectorDb.getMemoriesFromConversation` call, whose failure is swallowed. -/
def ConversationManager.getConversation (vectorDb : Option VectorStore)
    (conversationId : String) (memLoad : Except String (List StoredMemory)) :
    Option Conversation :=
  match vectorDb with
  | none => none
  | some db =>
    match resolveMeta db conversationId with
    | none => none
    | some (platform, platformId, md) =>
      let conversation := Conversation.new platformId platform
        { name := md.name
          description := md.description
          participants := md.participants
          createdAt := some (md.created.getD 0)
          lastActive := some (md.lastActive.getD (md.created.getD 0))
          userId := none } 0
      match memLoad with
      | .ok stored =>
        some (conversation.loadMemories
          (stored.map (formatStoredMemory conversation.id)))
      | .error _ => some conversation

/-- The conversation id probed by `getConversationByPlatformId`: the
reserved `"consciousness"` platform collapses every local id to the
`"main"` sentinel before derivation. -/
def ConversationManager.derivedConversationId (platformId platform : String) : String :=
  Conversation.createDeterministicId platform
    (if platform = "consciousness" then "main" else platformId)

def ConversationManager.getConversationByPlatformId (vectorDb : Option VectorStore)
    (platformId platform : String) (memLoad : Except String (List StoredMemory)) :
    Option Conversation :=
  ConversationManager.getConversation vectorDb
    (ConversationManager.derivedConversationId platformId platform) memLoad

/-- `ConversationManager.createConversation`: constructs the `Conversation`,
then labels its namespace in the store with the full denormalized metadata;
`modifyOutcome` is the outcome of the `collection.modify` store write, whose
failure is rethrown (creation fails hard). -/
def ConversationManager.createConversation (vectorDb : Option VectorStore)
    (platformId platform : String) (metadata : ConversationCtorMeta) (now : Nat)
    (modifyOutcome : Except String Unit) : Except String (Conversation × VectorStore) :=
  match vectorDb with
  | none => .error "VectorDB required for conversation creation"
  | some db =>
    let conversation := Conversation.new platformId platform metadata now
    match modifyOutcome with
    | .error e => .error e
    | .ok _ =>
      let ns : NamespaceMeta :=
        { description := some "Conversation-specific memory storage"
          conversationId := some conversation.id
          platform := some conversation.platform
          platformId := some conversation.platformId
          created := some conversation.createdAt
          lastActive := some conversation.lastActive
          name := metadata.name
          participants := metadata.participants
          userId := metadata.userId }
      .ok (conversation, { db with namespaces := upsertNs db.namespaces conversation.id ns })

/-- The metadata record passed to `vectorDb.storeInConversation` by
`addMemory`: the enriched fields first, then the caller-supplied metadata
spread over them (so a caller binding of the same key shadows the enriched
value). -/
def storeMetadataFor (memory : Memory) (conversation : Conversation)
    (metadata : List (String × String)) : List (String × String) :=
  [("memoryId", memory.id),
   ("timestamp", Nat.repr memory.timestamp),
   ("platform", conversation.platform),
   ("platformId", conversation.platformId)] ++ metadata

/-- The observable outcome of one `ConversationManager.addMemory` call:
the returned-or-thrown value, the in-memory `Conversation` object as it
stands when the call ends (`none` if resolution never produced one), and
the store write that was issued, if any, as (content, conversationId,
metadata). -/
instance {ε α : Type} [DecidableEq ε] [DecidableEq α] : DecidableEq (Except ε α)
  | .ok a, .ok b =>
    if h : a = b then isTrue (by rw [h]) else isFalse (by intro he; cases he; exact h rfl)
  | .ok _, .error _ => isFalse (by intro h; cases h)
  | .error _, .ok _ => isFalse (by intro h; cases h)
  | .error e, .error f =>
    if h : e = f then isTrue (by rw [h]) else isFalse (by intro he; cases he; exact h rfl)

structure AddMemoryOutcome where
  result : Except String Memory
  conversationAfter : Option Conversation
  storeWrite : Option (String × String × List (String × String))
deriving DecidableEq, Repr

/-- `ConversationManager.addMemory`: resolves the conversation (throws
`NotFound` when absent), appends to the in-memory log first, then issues
the store write; `writeOutcome` is the outcome of
`vectorDb.storeInConversation`, whose failure is rethrown after the
in-memory append has already happened. -/
def ConversationManager.addMemory (vectorDb : Option VectorStore)
    (conversationId content : String) (metadata : List (String × String))
    (memLoad : Except String (List StoredMemory)) (newId : String) (now : Nat)
    (writeOutcome : Except String Unit) : AddMemoryOutcome :=
  match vectorDb with
  | none =>
    { result := .error "VectorDB required for adding memories"
      conversationAfter := none
      storeWrite := none }
  | some db =>
    match ConversationManager.getConversation (some db) conversationId memLoad with
    | none =>
      { result := .error ("Conversation " ++ conversationId ++ " not found")
        conversationAfter := none
        storeWrite := none }
    | some conversation =>
      let am := conversation.addMemory content metadata newId now
      let write := (am.2.content, am.1.id, storeMetadataFor am.2 am.1 metadata)
      match writeOutcome with
      | .ok _ =>
        { result := .ok am.2, conversationAfter := some am.1, storeWrite := some write }
      | .error e =>
        { result := .error e, conversationAfter := some am.1, storeWrite := some write }

/-- `ConversationManager.ensureConversation`: get-or-create keyed by
(platform, name) — looks up via `getConversationByPlatformId` and falls
back to `createConversation` with a default metadata bag. -/
def ConversationManager.ensureConversation (vectorDb : Option VectorStore)
    (name platform : String) (userId : Option String)
    (memLoad : Except String (List StoredMemory)) (now : Nat)
    (modifyOutcome : Except String Unit) : Except String (Conversation × VectorStore) :=
  match ConversationManager.getConversationByPlatformId vectorDb name platform memLoad with
  | some conversation =>
    match vectorDb with
    | some db => .ok (conversation, db)
    | none => .ok (conversation, emptyStore)
  | none =>
    ConversationManager.createConversation vectorDb name platform
      { name := some name
        description := some ("Conversation for " ++ name)
        participants := some []
        createdAt := none
        lastActive := none
        userId := userId } now modifyOutcome

/-- The `context` object of the validated classification schema. -/
structure ClassificationContext where
  topic : String
  urgency : Option String
  additionalContext : String
deriving DecidableEq, Repr

/-- The `classification` part of the validated inference result;
`delegateToProcessor` is optional and nullable. -/
structure Classification where
  contentType : String
  requiresProcessing : Bool
  delegateToProcessor : Option String
  context : ClassificationContext
deriving DecidableEq, Repr

/-- The `enrichment` part of the validated inference result. -/
structure Enrichment where
  summary : String
  topics : List String
  sentiment : String
  entities : List String
  intent : String
deriving DecidableEq, Repr

/-- One proposed recurring task (numbers modelled as integers, opaque
`data` payloads as strings). -/
structure UpdateTask where
  name : String
  confidence : Int
  intervalMs : Nat
  data : String
deriving DecidableEq, Repr

/-- One suggested output of the processor. -/
structure SuggestedOutput where
  name : String
  data : String
  confidence : Int
  reasoning : String
deriving DecidableEq, Repr

/-- The full schema-validated result of the inference call inside
`MasterProcessor.process`. -/
structure LLMResult where
  classification : Classification
  enrichment : Enrichment
  updateTasks : List UpdateTask
  suggestedOutputs : List SuggestedOutput
deriving DecidableEq, Repr

/-- An output or action handler as far as `process` observes it (only the
name reaches the returned result; schemas only feed the prompt). -/
structure IOHandler where
  name : String
deriving DecidableEq, Repr

/-- The optional `ioContext` argument of `process`. -/
structure IOContext where
  availableOutputs : List IOHandler
  availableActions : List IOHandler
deriving DecidableEq, Repr

/-- The `metadata` field of a `ProcessedResult`: `(empty)` on the failure
path, the spread of the classification context plus `contentType` on the
success path. -/
inductive ResultMetadata where
  | empty
  | classified (context : ClassificationContext) (contentType : String)
deriving DecidableEq, Repr

def ResultMetadata.contentType : ResultMetadata → Option String
  | .empty => none
  | .classified _ ct => some ct

/-- The `enrichedContext` field of a `ProcessedResult`. -/
structure EnrichedContext where
  summary : String
  topics : List String
  sentiment : String
  entities : List String
  intent : String
  timeContext : String
  relatedMemories : List String
  availableOutputs : Option (List String)
deriving DecidableEq, Repr

/-- The value produced by a processor; `updateTasks` is absent on the
failure path. -/
structure ProcessedResult where
  content : String
  metadata : ResultMetadata
  enrichedContext : EnrichedContext
  updateTasks : Option (List UpdateTask)
  suggestedOutputs : List SuggestedOutput
  alreadyProcessed : Bool
deriving DecidableEq, Repr

/-- Modelled from the spec: a registered child processor — a capability
predicate plus a `process` implementation (the abstract `BaseProcessor`
source is not part of this extract). -/
structure ChildProcessor where
  canHandle : String → Bool
  process : String → String → Option IOContext → ProcessedResult

/-- Modelled from the spec: the child-processor registry lookup
(`this.getProcessor(name)` over the name-to-processor mapping). -/
def getProcessor : List (String × ChildProcessor) → String → Option ChildProcessor
  | [], _ => none
  | (k, v) :: rest, name => if k = name then some v else getProcessor rest name

/-- `MasterProcessor.canHandle`: content short enough for message
processing — strictly below the processor's content-size threshold
(`this.contentLimit`, a constructor-supplied bound in the missing
`BaseProcessor`; the reference scenario uses 1000). -/
def MasterProcessor.canHandle (contentLimit : Nat) (content : String) : Bool :=
  content.length < contentLimit

def availableOutputNames (ioContext : Option IOContext) : Option (List String) :=
  ioContext.map fun io => io.availableOutputs.map IOHandler.name

/-- The non-delegating success mapping of `MasterProcessor.process`:
classification context + enrichment + proposed outputs/tasks,
`alreadyProcessed := false`. -/
def finalizeResult (content : String) (result : LLMResult)
    (ioContext : Option IOContext) (timeContext : String) : ProcessedResult :=
  { content := content
    metadata := .classified result.classification.context result.classification.contentType
    enrichedContext :=
      { summary := result.enrichment.summary
        topics := result.enrichment.topics
        sentiment := result.enrichment.sentiment
        entities := result.enrichment.entities
        intent := result.enrichment.intent
        timeContext := timeContext
        relatedMemories := []
        availableOutputs := availableOutputNames ioContext }
    updateTasks := some result.updateTasks
    suggestedOutputs := result.suggestedOutputs
    alreadyProcessed := false }

/-- The degraded-but-valid result returned by the catch branch of
`MasterProcessor.process`. -/
def degradedResult (content contentStr : String) (ioContext : Option IOContext)
    (timeContext : String) : ProcessedResult :=
  { content := content
    metadata := .empty
    enrichedContext :=
      { summary := contentStr.take 100
        topics := []
        sentiment := "neutral"
        entities := []
        intent := "unknown"
        timeContext := timeContext
        relatedMemories := []
        availableOutputs := availableOutputNames ioContext }
    updateTasks := none
    suggestedOutputs := []
    alreadyProcessed := false }

/-- The string appended to `otherContext` before recursing into a child
processor. -/
def delegationSuffix (summary : String) : String :=
  "\n\n# Summary of the content:\n                    " ++ summary

/-- `MasterProcessor.process` for string content (so `contentStr` is the
content itself): `inference` is the outcome of the schema-validated
backend call, `timeContext` the value of `getTimeContext(new Date())`.
Delegation happens when the classification's `delegateToProcessor` is
truthy, a registered child of that name exists, and that child's
`canHandle` holds; otherwise the parent finalizes; an inference or
validation failure yields the degraded result. -/
def MasterProcessor.process (inference : Except String LLMResult)
    (processors : List (String × ChildProcessor)) (content otherContext : String)
    (ioContext : Option IOContext) (timeContext : String) : ProcessedResult :=
  let contentStr := content
  match inference with
  | .error _ => degradedResult content contentStr ioContext timeContext
  | .ok result =>
    match result.classification.delegateToProcessor with
    | some d =>
      if d = "" then finalizeResult content result ioContext timeContext
      else
        match getProcessor processors d with
        | some child =>
          if child.canHandle content then
            child.process content
              (otherContext ++ delegationSuffix result.enrichment.summary) ioContext
          else finalizeResult content result ioContext timeContext
        | none => finalizeResult content result ioContext timeContext
    | none => finalizeResult content result ioContext timeContext

/-- One suggested action attached to a generated thought. -/
structure SuggestedAction where
  type : Option String
  platform : Option String
deriving DecidableEq, Repr

/-- The `context` object that `generateThought` attaches to its result
(`(reasoning, ...response.context, type, suggestedActions)`). -/
structure GenContext where
  reasoning : String
  topics : List String
  timeframe : Option String
  reliability : Option String
  type : String
  suggestedActions : List SuggestedAction
deriving DecidableEq, Repr

/-- The value produced by `Consciousness.generateThought`. -/
structure GenThought where
  content : String
  type : String
  context : GenContext
  timestamp : Nat
deriving DecidableEq, Repr

/-- The `metadata` field of a returned `Thought`: on success the spread of
the generated context plus `suggestedActions` and `conversationId`; on
failure the error message. -/
inductive ThoughtMetadata where
  | fromContext (context : GenContext) (suggestedActions : List SuggestedAction)
      (conversationId : String)
  | failure (error : String)
deriving DecidableEq, Repr

/-- The `Thought` value returned by `Consciousness.think`. -/
structure Thought where
  type : String
  source : String
  content : String
  timestamp : Nat
  metadata : ThoughtMetadata
deriving DecidableEq, Repr

/-- `Consciousness.CONVERSATION_ID`, the singleton self-conversation id. -/
def Consciousness.SELF_CONVERSATION_ID : String := "consciousness_main"

/-- The observable outcome of one `Consciousness.think` call: the returned
`Thought`, the recent-actions buffer afterwards, and the
fire-and-forget `addMemory` request issued on the success path, as
(conversationId, content, metadata). -/
structure ThinkOutcome where
  thought : Thought
  recentActions : List String
  memoryAppend : Option (String × String × List (String × String))
deriving DecidableEq, Repr

/-- `Consciousness.think`: `gen` is the outcome of `generateThought` (the
only fallible step inside the `try`; the `addMemory` call is issued
without `await`, so its outcome cannot influence the returned value).
On success the thought content is appended to the self-conversation and
pushed onto the bounded recent-actions buffer; on failure an `"error"`
thought carrying the failure message is returned. -/
def Consciousness.think (recentActions : List String)
    (gen : Except String GenThought) (now : Nat) : ThinkOutcome :=
  match gen with
  | .ok thought =>
    let pushed := recentActions ++ [thought.content]
    { thought :=
        { type := "internal_thought"
          source := "consciousness"
          content := thought.content
          timestamp := thought.timestamp
          metadata := .fromContext thought.context thought.context.suggestedActions
            Consciousness.SELF_CONVERSATION_ID }
      recentActions := if pushed.length > 10 then pushed.tail else pushed
      memoryAppend := some (Consciousness.SELF_CONVERSATION_ID, thought.content,
        [("type", "internal_thought"), ("source", "consciousness"),
         ("content", thought.content), ("timestamp", Nat.repr thought.timestamp)]) }
  | .error e =>
    { thought :=
        { type := "error"
          source := "consciousness"
          content := "Error occurred during thought process"
          timestamp := now
          metadata := .failure e }
      recentActions := recentActions
      memoryAppend := none }

/-- The recent-actions buffer reached from the initial empty buffer by a
sequence of `think` calls with the given generation outcomes. -/
def Consciousness.runThinks (gens : List (Except String GenThought)) : List String :=
  gens.foldl (fun ra g => (Consciousness.think ra g 0).recentActions) []

/-! ### Lemmas about the identity scheme -/

theorem strDataAppend (s t : String) : (s ++ t).data = s.data ++ t.data := by
  cases s; cases t; rfl

theorem takeWhileStar (n : Nat) (t : List Char) :
    ((List.replicate n '*' ++ ':' :: t).takeWhile fun c => c == '*')
      = List.replicate n '*' := by
  induction n with
  | zero => simp [List.takeWhile_cons]
  | succ n ih => simp [List.replicate_succ, List.takeWhile_cons, ih]

theorem dropStar (n : Nat) (t : List Char) :
    (List.replicate n '*' ++ ':' :: t).drop (n + 1) = t := by
  induction n with
  | zero => rfl
  | succ n ih => simpa [List.replicate_succ] using ih

theorem createDeterministicId_data (p x : String) :
    (Conversation.createDeterministicId p x).data
      = List.replicate p.length '*' ++ ':' :: (p.data ++ x.data) := by
  unfold Conversation.createDeterministicId
  rw [strDataAppend, strDataAppend, strDataAppend]
  rw [show (String.mk (List.replicate p.length '*')).data = List.replicate p.length '*' from rfl]
  rw [show (":" : String).data = [':'] from rfl]
  simp only [List.append_assoc, List.singleton_append, List.cons_append, List.nil_append]

theorem createDeterministicId_injective {p x q y : String}
    (h : Conversation.createDeterministicId p x = Conversation.createDeterministicId q y) :
    p = q ∧ x = y := by
  have hd : List.replicate p.length '*' ++ ':' :: (p.data ++ x.data)
      = List.replicate q.length '*' ++ ':' :: (q.data ++ y.data) := by
    have := congrArg String.data h
    rwa [createDeterministicId_data, createDeterministicId_data] at this
  have hlen : p.length = q.length := by
    have htw := congrArg (List.takeWhile fun c => c == '*') hd
    rw [takeWhileStar, takeWhileStar] at htw
    simpa using congrArg List.length htw
  have hdrop : p.data ++ x.data = q.data ++ y.data := by
    have hdr := congrArg (List.drop (p.length + 1)) hd
    rw [dropStar, hlen, dropStar] at hdr
    exact hdr
  have hpq : p.data = q.data ∧ x.data = y.data :=
    List.append_inj hdrop hlen
  constructor
  · cases p; cases q; exact congrArg String.mk hpq.1
  · cases x; cases y; exact congrArg String.mk hpq.2

/-! ### C5 — identity derivation in `getConversationByPlatformId` -/

/-- C5: for the reserved platform `"consciousness"`, every local id is
normalized to the `"main"` sentinel before derivation, so all local ids
resolve to one conversation id; derivation is deterministic; and for a
non-reserved platform the derived id differs for any change to the
platform or the local id. -/
theorem derivedConversationId_spec :
    (∀ x y : String,
      ConversationManager.derivedConversationId x "consciousness"
        = ConversationManager.derivedConversationId y "consciousness") ∧
    (∀ p x : String,
      ConversationManager.derivedConversationId x p
        = ConversationManager.derivedConversationId x p) ∧
    (∀ p q x y : String, p ≠ "consciousness" → (p, x) ≠ (q, y) →
      ConversationManager.derivedConversationId x p
        ≠ ConversationManager.derivedConversationId y q) := by
  refine ⟨fun x y => rfl, fun p x => rfl, fun p q x y hp hne h => ?_⟩
  unfold ConversationManager.derivedConversationId at h
  by_cases hq : q = "consciousness"
  · subst hq
    rw [if_neg hp, if_pos rfl] at h
    exact hp (createDeterministicId_injective h).1
  · rw [if_neg hp, if_neg hq] at h
    have hinj := createDeterministicId_injective h
    exact hne (by rw [hinj.1, hinj.2])

/-- Witness for C5 at concrete inputs. -/
theorem derivedConversationId_spec_witness :
    ("discord" : String) ≠ "consciousness" ∧
    (("discord", "a") : String × String) ≠ ("discord", "b") ∧
    ConversationManager.derivedConversationId "a" "discord"
      ≠ ConversationManager.derivedConversationId "b" "discord" ∧
    ConversationManager.derivedConversationId "alpha" "consciousness"
      = ConversationManager.derivedConversationId "beta" "consciousness" :=
  ⟨by decide, by decide,
   derivedConversationId_spec.2.2 "discord" "discord" "a" "b" (by decide) (by decide),
   derivedConversationId_spec.1 "alpha" "beta"⟩

/-! ### C3 — delegation condition in `MasterProcessor.process` -/

/-- C3: on a validated result, `process` recurses into a child exactly when
`delegateToProcessor` is set (truthy), a registered child of that name
exists, and that child's `canHandle` holds on the content; the child gets
the original content and `otherContext` extended by appending the parent's
summary; in every other case the parent finalizes itself. -/
theorem process_delegation_exactly
    (result : LLMResult) (processors : List (String × ChildProcessor))
    (content otherContext : String) (ioContext : Option IOContext)
    (timeContext : String) :
    (∀ d child, result.classification.delegateToProcessor = some d → d ≠ "" →
      getProcessor processors d = some child → child.canHandle content = true →
      MasterProcessor.process (.ok result) processors content otherContext ioContext
          timeContext
        = child.process content
            (otherContext ++ delegationSuffix result.enrichment.summary) ioContext) ∧
    ((¬ ∃ d child, result.classification.delegateToProcessor = some d ∧ d ≠ "" ∧
        getProcessor processors d = some child ∧ child.canHandle content = true) →
      MasterProcessor.process (.ok result) processors content otherContext ioContext
          timeContext
        = finalizeResult content result ioContext timeContext) := by
  constructor
  · intro d child hd hne hp hc
    simp [MasterProcessor.process, hd, hne, hp, hc]
  · intro hno
    unfold MasterProcessor.process
    cases hd : result.classification.delegateToProcessor with
    | none => simp [hd]
    | some d =>
      by_cases hne : d = ""
      · simp [hd, hne]
      · cases hp : getProcessor processors d with
        | none => simp [hd, hne, hp]
        | some child =>
          cases hc : child.canHandle content with
          | true => exact absurd ⟨d, child, hd, hne, hp, hc⟩ hno
          | false => simp [hd, hne, hp, hc]

def demoContext : ClassificationContext :=
  { topic := "smalltalk", urgency := none, additionalContext := "" }

def demoEnrichment : Enrichment :=
  { summary := "a greeting", topics := ["hi"], sentiment := "positive"
    entities := [], intent := "greet" }

def demoDelegatingResult : LLMResult :=
  { classification :=
      { contentType := "message", requiresProcessing := true
        delegateToProcessor := some "child", context := demoContext }
    enrichment := demoEnrichment
    updateTasks := []
    suggestedOutputs := [] }

def demoChildResult : ProcessedResult := degradedResult "x" "x" none "t0"

def demoChild : ChildProcessor :=
  { canHandle := fun _ => true, process := fun _ _ _ => demoChildResult }

/-- Witness for C3 at a concrete delegating run. -/
theorem process_delegation_exactly_witness :
    MasterProcessor.process (.ok demoDelegatingResult) [("child", demoChild)] "hello"
        "ctx" none "tc"
      = demoChild.process "hello"
          ("ctx" ++ delegationSuffix demoDelegatingResult.enrichment.summary) none :=
  (process_delegation_exactly demoDelegatingResult [("child", demoChild)] "hello" "ctx"
      none "tc").1 "child" demoChild rfl (by decide) rfl rfl

/-! ### C4 — degraded result on inference or validation failure -/

/-- C4: a failed inference or schema-validation outcome is converted into a
degraded-but-valid `ProcessedResult` with neutral sentiment, empty topic,
entity and suggested-output lists, the truncated raw content as summary,
and `alreadyProcessed := false`; `process` never propagates the error. -/
theorem process_degrades_on_inference_failure
    (e : String) (processors : List (String × ChildProcessor))
    (content otherContext : String) (ioContext : Option IOContext)
    (timeContext : String) :
    MasterProcessor.process (.error e) processors content otherContext ioContext
        timeContext
      = degradedResult content content ioContext timeContext ∧
    (MasterProcessor.process (.error e) processors content otherContext ioContext
        timeContext).enrichedContext.sentiment = "neutral" ∧
    (MasterProcessor.process (.error e) processors content otherContext ioContext
        timeContext).enrichedContext.topics = [] ∧
    (MasterProcessor.process (.error e) processors content otherContext ioContext
        timeContext).enrichedContext.entities = [] ∧
    (MasterProcessor.process (.error e) processors content otherContext ioContext
        timeContext).enrichedContext.summary = content.take 100 ∧
    (MasterProcessor.process (.error e) processors content otherContext ioContext
        timeContext).suggestedOutputs = [] ∧
    (MasterProcessor.process (.error e) processors content otherContext ioContext
        timeContext).alreadyProcessed = false := by
  have h : MasterProcessor.process (.error e) processors content otherContext ioContext
      timeContext = degradedResult content content ioContext timeContext := by
    unfold MasterProcessor.process
    rfl
  refine ⟨h, ?_, ?_, ?_, ?_, ?_, ?_⟩ <;> rw [h] <;> simp [degradedResult]

/-! ### C8 — end-to-end non-delegating success path -/

/-- C8: `"hello"` passes a 1000-character `canHandle` threshold, and a
validated result with a null `delegateToProcessor` and contentType
`"greeting"` finalizes into a `ProcessedResult` whose metadata carries
contentType `"greeting"` with `alreadyProcessed = false`. -/
theorem greeting_scenario
    (result : LLMResult) (processors : List (String × ChildProcessor))
    (otherContext : String) (ioContext : Option IOContext) (timeContext : String)
    (hdeleg : result.classification.delegateToProcessor = none)
    (hct : result.classification.contentType = "greeting") :
    MasterProcessor.canHandle 1000 "hello" = true ∧
    (MasterProcessor.process (.ok result) processors "hello" otherContext ioContext
        timeContext).metadata.contentType = some "greeting" ∧
    (MasterProcessor.process (.ok result) processors "hello" otherContext ioContext
        timeContext).alreadyProcessed = false := by
  refine ⟨by decide, ?_, ?_⟩ <;>
    simp [MasterProcessor.process, hdeleg, finalizeResult, ResultMetadata.contentType, hct]

def demoGreetingResult : LLMResult :=
  { classification :=
      { contentType := "greeting", requiresProcessing := false
        delegateToProcessor := none, context := demoContext }
    enrichment := demoEnrichment
    updateTasks := []
    suggestedOutputs := [] }

/-- Witness for C8 at a concrete validated result. -/
theorem greeting_scenario_witness :
    MasterProcessor.canHandle 1000 "hello" = true ∧
    (MasterProcessor.process (.ok demoGreetingResult) [] "hello" "octx" none
        "tc").metadata.contentType = some "greeting" ∧
    (MasterProcessor.process (.ok demoGreetingResult) [] "hello" "octx" none
        "tc").alreadyProcessed = false :=
  greeting_scenario demoGreetingResult [] "octx" none "tc" rfl rfl

/-! ### C7 — `think` is infallible at its outer boundary -/

/-- C7: `think` is a total function into `Thought` for every generation
outcome (it never throws); on success it issues the fire-and-forget append
of the generated content to the singleton self-conversation and returns an
`internal_thought`; on any generation failure it returns a `Thought` of
type `"error"` whose metadata carries the failure message (and no append
is issued, since the failure precedes it). -/
theorem think_infallible (recentActions : List String)
    (gen : Except String GenThought) (now : Nat) :
    (Consciousness.think recentActions gen now).thought.source = "consciousness" ∧
    (∀ t, gen = .ok t →
      (Consciousness.think recentActions gen now).thought.type = "internal_thought" ∧
      (Consciousness.think recentActions gen now).thought.content = t.content ∧
      (Consciousness.think recentActions gen now).memoryAppend
        = some (Consciousness.SELF_CONVERSATION_ID, t.content,
            [("type", "internal_thought"), ("source", "consciousness"),
             ("content", t.content), ("timestamp", Nat.repr t.timestamp)])) ∧
    (∀ e, gen = .error e →
      (Consciousness.think recentActions gen now).thought.type = "error" ∧
      (Consciousness.think recentActions gen now).thought.metadata
        = .failure e ∧
      (Consciousness.think recentActions gen now).memoryAppend = none) := by
  refine ⟨?_, ?_, ?_⟩
  · cases gen <;> rfl
  · rintro t rfl
    exact ⟨rfl, rfl, rfl⟩
  · rintro e rfl
    exact ⟨rfl, rfl, rfl⟩

def demoGenContext : GenContext :=
  { reasoning := "because", topics := ["ponziland"], timeframe := none
    reliability := none, type := "tweet", suggestedActions := [] }

def demoGenThought : GenThought :=
  { content := "I should bid on an auction", type := "tweet"
    context := demoGenContext, timestamp := 3 }

/-- Witness for C7 on a concrete success and a concrete failure. -/
theorem think_infallible_witness :
    (Consciousness.think [] (.ok demoGenThought) 0).memoryAppend
      = some (Consciousness.SELF_CONVERSATION_ID, demoGenThought.content,
          [("type", "internal_thought"), ("source", "consciousness"),
           ("content", demoGenThought.content),
           ("timestamp", Nat.repr demoGenThought.timestamp)]) ∧
    (Consciousness.think [] (.error "boom") 0).thought.type = "error" ∧
    (Consciousness.think [] (.error "boom") 0).thought.metadata
      = .failure "boom" :=
  ⟨((think_infallible [] (.ok demoGenThought) 0).2.1 demoGenThought rfl).2.2,
   ((think_infallible [] (.error "boom") 0).2.2 "boom" rfl).1,
   ((think_infallible [] (.error "boom") 0).2.2 "boom" rfl).2.1⟩

/-! ### C9 — the recent-actions buffer is bounded with FIFO eviction -/

theorem think_recentActions_le (ra : List String) (g : Except String GenThought)
    (now : Nat) (h : ra.length ≤ 10) :
    (Consciousness.think ra g now).recentActions.length ≤ 10 := by
  cases g with
  | error e => simpa [Consciousness.think] using h
  | ok t =>
    simp only [Consciousness.think]
    by_cases hc : (ra ++ [t.content]).length > 10
    · rw [if_pos hc, List.length_tail]
      simp
      omega
    · rw [if_neg hc]
      omega

theorem runThinks_bound_aux (gens : List (Except String GenThought))
    (ra : List String) (h : ra.length ≤ 10) :
    (gens.foldl (fun ra g => (Consciousness.think ra g 0).recentActions) ra).length
      ≤ 10 := by
  induction gens generalizing ra with
  | nil => simpa using h
  | cons g gs ih => exact ih _ (think_recentActions_le ra g 0 h)

/-- C9: starting from the empty buffer, after every sequence of completed
`think` calls the recent-actions buffer holds at most 10 entries, and a
successful `think` on a full buffer of 10 evicts the oldest entry first
(FIFO) while appending the new content at the back. -/
theorem recentActions_bounded_fifo :
    (∀ gens : List (Except String GenThought),
      (Consciousness.runThinks gens).length ≤ 10) ∧
    (∀ (ra : List String) (t : GenThought) (now : Nat), ra.length = 10 →
      (Consciousness.think ra (.ok t) now).recentActions = ra.tail ++ [t.content]) := by
  constructor
  · intro gens
    exact runThinks_bound_aux gens [] (by simp)
  · intro ra t now h
    have hgt : (ra ++ [t.content]).length > 10 := by simp [h]
    have hne : ra ≠ [] := by
      intro hra
      rw [hra] at h
      simp at h
    simp only [Consciousness.think]
    rw [if_pos hgt]
    exact List.tail_append_of_ne_nil hne

/-- Witness for C9 on a concrete full buffer. -/
theorem recentActions_bounded_fifo_witness :
    (["a1", "a2", "a3", "a4", "a5", "a6", "a7", "a8", "a9", "a10"] : List String).length
        = 10 ∧
    (Consciousness.think ["a1", "a2", "a3", "a4", "a5", "a6", "a7", "a8", "a9", "a10"]
        (.ok demoGenThought) 0).recentActions
      = (["a1", "a2", "a3", "a4", "a5", "a6", "a7", "a8", "a9", "a10"] :
          List String).tail ++ [demoGenThought.content] ∧
    (Consciousness.runThinks [.ok demoGenThought, .error "x"]).length ≤ 10 :=
  ⟨by decide,
   recentActions_bounded_fifo.2 ["a1", "a2", "a3", "a4", "a5", "a6", "a7", "a8", "a9", "a10"]
     demoGenThought 0 (by decide),
   recentActions_bounded_fifo.1 [.ok demoGenThought, .error "x"]⟩

/-! ### C2 — asymmetry of `getConversation` between identity and history -/

/-- C2: if the stored namespace metadata lacks `platform` or `platformId`,
`getConversation` returns absent for every memory-load outcome, never a
partially-populated `Conversation`; if both fields are present (and
truthy) but loading the persisted memories fails, the failure is swallowed
and a `Conversation` is still returned, with an empty memory log. -/
theorem getConversation_asymmetry (db : VectorStore) (conversationId : String)
    (md : NamespaceMeta) (hmd : lookupNs db.namespaces conversationId = some md) :
    ((md.platform = none ∨ md.platformId = none) →
      ∀ ml, ConversationManager.getConversation (some db) conversationId ml = none) ∧
    (∀ platform platformId e, md.platform = some platform → platform ≠ "" →
      md.platformId = some platformId → platformId ≠ "" →
      ∃ c, ConversationManager.getConversation (some db) conversationId (.error e)
          = some c ∧
        c.memories = [] ∧ c.platform = platform ∧ c.platformId = platformId) := by
  constructor
  · rintro (hp | hp) ml
    · simp [ConversationManager.getConversation, resolveMeta, hmd, hp]
    · cases hq : md.platform <;>
        simp [ConversationManager.getConversation, resolveMeta, hmd, hp, hq]
  · intro platform platformId e hp hne hpid hnpid
    simp only [ConversationManager.getConversation, resolveMeta, hmd, hp, hpid]
    rw [if_neg (by simp [hne, hnpid])]
    exact ⟨_, rfl, rfl, rfl, rfl⟩

def demoBadNs : NamespaceMeta :=
  { description := none, conversationId := none, platform := some "discord"
    platformId := none, created := none, lastActive := none, name := none
    participants := none, userId := none }

def demoNs : NamespaceMeta :=
  { description := none, conversationId := none, platform := some "discord"
    platformId := some "42", created := some 5, lastActive := some 6
    name := some "general", participants := none, userId := none }

def demoStore : VectorStore :=
  { namespaces := [("bad", demoBadNs), ("room1", demoNs)] }

/-- Witness for C2 on a concrete store. -/
theorem getConversation_asymmetry_witness :
    ConversationManager.getConversation (some demoStore) "bad" (.ok []) = none ∧
    (∃ c, ConversationManager.getConversation (some demoStore) "room1"
        (.error "net down") = some c ∧
      c.memories = [] ∧ c.platform = "discord" ∧ c.platformId = "42") :=
  ⟨(getConversation_asymmetry demoStore "bad" demoBadNs rfl).1 (Or.inr rfl) (.ok []),
   (getConversation_asymmetry demoStore "room1" demoNs rfl).2 "discord" "42" "net down"
     rfl (by decide) rfl (by decide)⟩

/-! ### C1 — `addMemory` resolves, appends in memory, then writes through -/

/-- C1: `addMemory` resolves the conversation and fails with the `NotFound`
error when it resolves to absent (no append, no store write); otherwise it
appends the new memory to the in-memory `Conversation` log and issues the
store write referencing that appended memory, and when the store write
fails the error propagates to the caller while the in-memory append
remains in effect (the outcome's `conversationAfter` already holds the
appended log) — `addMemory` is not atomic. -/
theorem addMemory_append_then_write (db : VectorStore)
    (conversationId content : String) (metadata : List (String × String))
    (memLoad : Except String (List StoredMemory)) (newId : String) (now : Nat)
    (writeOutcome : Except String Unit) :
    (ConversationManager.getConversation (some db) conversationId memLoad = none →
      ConversationManager.addMemory (some db) conversationId content metadata memLoad
          newId now writeOutcome
        = { result := .error ("Conversation " ++ conversationId ++ " not found")
            conversationAfter := none
            storeWrite := none }) ∧
    (∀ conversation,
      ConversationManager.getConversation (some db) conversationId memLoad
          = some conversation →
      ∃ m : Memory,
        m = { id := newId, conversationId := conversation.id, content := content
              timestamp := now, metadata := metadata } ∧
        (ConversationManager.addMemory (some db) conversationId content metadata
            memLoad newId now writeOutcome).conversationAfter
          = some { conversation with memories := conversation.memories ++ [m] } ∧
        (ConversationManager.addMemory (some db) conversationId content metadata
            memLoad newId now writeOutcome).storeWrite
          = some (content, conversation.id, storeMetadataFor m conversation metadata) ∧
        (writeOutcome = .ok () →
          (ConversationManager.addMemory (some db) conversationId content metadata
              memLoad newId now writeOutcome).result = .ok m) ∧
        (∀ e, writeOutcome = .error e →
          (ConversationManager.addMemory (some db) conversationId content metadata
              memLoad newId now writeOutcome).result = .error e)) := by
  constructor
  · intro h
    simp [ConversationManager.addMemory, h]
  · intro conversation h
    refine ⟨_, rfl, ?_, ?_, ?_, ?_⟩
    · cases writeOutcome <;> simp [ConversationManager.addMemory, h, Conversation.addMemory]
    · cases writeOutcome <;>
        simp [ConversationManager.addMemory, h, Conversation.addMemory, storeMetadataFor]
    · rintro rfl
      simp [ConversationManager.addMemory, h, Conversation.addMemory]
    · rintro e rfl
      simp [ConversationManager.addMemory, h, Conversation.addMemory]

def demoConv : Conversation :=
  (Conversation.new "42" "discord"
    { name := some "general", description := none, participants := none
      createdAt := some 5, lastActive := some 6, userId := none } 0).loadMemories []

/-- Witness for C1: a concrete resolved conversation whose store write
fails — the error propagates while the append is already visible. -/
theorem addMemory_append_then_write_witness :
    ∃ m : Memory,
      m = { id := "m1", conversationId := demoConv.id, content := "hi"
            timestamp := 7, metadata := [] } ∧
      (ConversationManager.addMemory (some demoStore) "room1" "hi" [] (.ok []) "m1" 7
          (.error "disk full")).conversationAfter
        = some { demoConv with memories := demoConv.memories ++ [m] } ∧
      (ConversationManager.addMemory (some demoStore) "room1" "hi" [] (.ok []) "m1" 7
          (.error "disk full")).storeWrite
        = some ("hi", demoConv.id, storeMetadataFor m demoConv []) ∧
      ((.error "disk full" : Except String Unit) = .ok () →
        (ConversationManager.addMemory (some demoStore) "room1" "hi" [] (.ok []) "m1" 7
            (.error "disk full")).result = .ok m) ∧
      (∀ e, (.error "disk full" : Except String Unit) = .error e →
        (ConversationManager.addMemory (some demoStore) "room1" "hi" [] (.ok []) "m1" 7
            (.error "disk full")).result = .error e) :=
  (addMemory_append_then_write demoStore "room1" "hi" [] (.ok []) "m1" 7
      (.error "disk full")).2 demoConv (by decide)

/-! ### C10 — caller-supplied metadata overrides the enriched fields -/

theorem objGet_append_right (a b : List (String × String)) (k v : String)
    (h : objGet b k = some v) : objGet (a ++ b) k = some v := by
  induction a with
  | nil => simpa using h
  | cons p rest ih =>
    cases p with
    | mk k' v' => simp [objGet, ih]

/-- C10: in `addMemory`, the caller-supplied metadata is spread after the
enriched fields, so a caller binding for `memoryId`, `timestamp`,
`platform` or `platformId` overrides the enriched value in the persisted
record, while the returned `Memory` keeps the id and timestamp assigned by
the in-memory append. -/
theorem addMemory_caller_metadata_overrides (db : VectorStore)
    (conversationId content : String) (callerMeta : List (String × String))
    (memLoad : Except String (List StoredMemory)) (newId : String) (now : Nat)
    (conversation : Conversation) (k v : String)
    (hres : ConversationManager.getConversation (some db) conversationId memLoad
        = some conversation)
    (_hk : k = "memoryId" ∨ k = "timestamp" ∨ k = "platform" ∨ k = "platformId")
    (hv : objGet callerMeta k = some v) :
    (∃ sm, (ConversationManager.addMemory (some db) conversationId content callerMeta
          memLoad newId now (.ok ())).storeWrite = some (content, conversation.id, sm) ∧
      objGet sm k = some v) ∧
    (ConversationManager.addMemory (some db) conversationId content callerMeta memLoad
        newId now (.ok ())).result
      = .ok { id := newId, conversationId := conversation.id, content := content
              timestamp := now, metadata := callerMeta } := by
  constructor
  · refine ⟨storeMetadataFor
        { id := newId, conversationId := conversation.id, content := content
          timestamp := now, metadata := callerMeta } conversation callerMeta, ?_, ?_⟩
    · simp [ConversationManager.addMemory, hres, Conversation.addMemory, storeMetadataFor]
    · unfold storeMetadataFor
      exact objGet_append_right _ _ _ _ hv
  · simp [ConversationManager.addMemory, hres, Conversation.addMemory]

def demoCallerMeta : List (String × String) :=
  [("memoryId", "custom-id"), ("mood", "happy")]

/-- Witness for C10: a caller `memoryId` binding shadows the enriched one
in the persisted record while the returned memory keeps the assigned id. -/
theorem addMemory_caller_metadata_overrides_witness :
    (∃ sm, (ConversationManager.addMemory (some demoStore) "room1" "hi" demoCallerMeta
          (.ok []) "m9" 4 (.ok ())).storeWrite = some ("hi", demoConv.id, sm) ∧
      objGet sm "memoryId" = some "custom-id") ∧
    (ConversationManager.addMemory (some demoStore) "room1" "hi" demoCallerMeta
        (.ok []) "m9" 4 (.ok ())).result
      = .ok { id := "m9", conversationId := demoConv.id, content := "hi"
              timestamp := 4, metadata := demoCallerMeta } :=
  addMemory_caller_metadata_overrides demoStore "room1" "hi" demoCallerMeta (.ok [])
    "m9" 4 demoConv "memoryId" "custom-id" (by decide) (Or.inl rfl) (by decide)

/-! ### C6 — `ensureConversation` called twice -/

theorem lookupNs_upsert_self (l : List (String × NamespaceMeta)) (k : String)
    (v : NamespaceMeta) : lookupNs (upsertNs l k v) k = some v := by
  induction l with
  | nil => simp [upsertNs, lookupNs]
  | cons p rest ih =>
    cases p with
    | mk k' w =>
      by_cases h : k' = k
      · simp [upsertNs, lookupNs, h]
      · simp [upsertNs, lookupNs, h, ih]

/-- A resolved `getConversation` pins down the namespace metadata and the
shape of the returned conversation's identity fields. -/
theorem getConversation_resolved (db : VectorStore) (cid : String)
    (ml : Except String (List StoredMemory)) (p pid : String) (md : NamespaceMeta)
    (hr : resolveMeta db cid = some (p, pid, md)) :
    ∃ c, ConversationManager.getConversation (some db) cid ml = some c ∧
      c.id = Conversation.createDeterministicId p pid ∧
      c.platform = p ∧ c.platformId = pid := by
  simp only [ConversationManager.getConversation, hr]
  cases ml with
  | ok stored => exact ⟨_, rfl, rfl, rfl, rfl⟩
  | error e => exact ⟨_, rfl, rfl, rfl, rfl⟩

theorem getConversation_none_iff (db : VectorStore) (cid : String)
    (ml : Except String (List StoredMemory)) :
    ConversationManager.getConversation (some db) cid ml = none
      ↔ resolveMeta db cid = none := by
  unfold ConversationManager.getConversation
  cases hr : resolveMeta db cid with
  | none => simp [hr]
  | some t =>
    obtain ⟨p, pid, md⟩ := t
    cases ml <;> simp [hr]

/-- The truthy-metadata namespace written by `createConversation` resolves
at its own key after an upsert. -/
theorem resolveMeta_upsert (db : VectorStore) (key : String) (ns : NamespaceMeta)
    (p pid : String) (hp : ns.platform = some p) (hpid : ns.platformId = some pid)
    (hne : p ≠ "") (hnpid : pid ≠ "") :
    resolveMeta { namespaces := upsertNs db.namespaces key ns } key
      = some (p, pid, ns) := by
  unfold resolveMeta
  rw [show ({ namespaces := upsertNs db.namespaces key ns } : VectorStore).namespaces
      = upsertNs db.namespaces key ns from rfl]
  rw [lookupNs_upsert_self]
  simp [hp, hpid, hne, hnpid]

/-- C6 counterexample: under the reserved `"consciousness"` platform with a
non-sentinel name, the second `ensureConversation` call does NOT resolve
the conversation created by the first — the lookup still probes the
sentinel-derived id while creation stored under the raw name — so the
claim's "the second call resolves instead of creating again" is false. -/
theorem ensureConversation_reserved_counterexample :
    (ConversationManager.ensureConversation (some emptyStore) "x" "consciousness" none
        (.ok []) 0 (.ok ())).toOption.map
      (fun r => (ConversationManager.getConversationByPlatformId (some r.2) "x"
          "consciousness" (.ok [])).isSome)
      = some false := by decide

/-- The namespace metadata record that `createConversation` writes when
invoked by `ensureConversation` with its default metadata bag. -/
def ensureNsMeta (name platform : String) (userId : Option String) (t : Nat) :
    NamespaceMeta :=
  { description := some "Conversation-specific memory storage"
    conversationId := some (Conversation.createDeterministicId platform name)
    platform := some platform
    platformId := some name
    created := some t
    lastActive := some t
    name := some name
    participants := some []
    userId := userId }

/-- C6 (amended): for a platform other than the reserved
`"consciousness"` value, with JS-truthy (non-empty) platform and name,
calling `ensureConversation(name, platform)` twice returns a Conversation
with the same id both times, the second call leaves the store exactly as
the first call left it (no second namespace is created), and the second
call resolves the conversation created by the first instead of creating
again. -/
theorem ensureConversation_idempotent (db : VectorStore) (name platform : String)
    (userId : Option String) (ml₁ ml₂ : Except String (List StoredMemory))
    (t₁ t₂ : Nat)
    (hc : platform ≠ "consciousness") (hp : platform ≠ "") (hn : name ≠ "") :
    ∃ c₁ db₁ c₂,
      ConversationManager.ensureConversation (some db) name platform userId ml₁ t₁
          (.ok ()) = .ok (c₁, db₁) ∧
      ConversationManager.ensureConversation (some db₁) name platform userId ml₂ t₂
          (.ok ()) = .ok (c₂, db₁) ∧
      c₂.id = c₁.id ∧
      ConversationManager.getConversationByPlatformId (some db₁) name platform ml₂
        = some c₂ := by
  cases h₁ : ConversationManager.getConversationByPlatformId (some db) name platform ml₁ with
  | some c =>
    have h₁' : ConversationManager.getConversation (some db)
        (ConversationManager.derivedConversationId name platform) ml₁ = some c := h₁
    cases hr : resolveMeta db (ConversationManager.derivedConversationId name platform) with
    | none =>
      rw [(getConversation_none_iff db _ ml₁).mpr hr] at h₁'
      cases h₁'
    | some t =>
      obtain ⟨p, pid, md⟩ := t
      obtain ⟨c₁x, hg₁, hid₁, _, _⟩ := getConversation_resolved db _ ml₁ p pid md hr
      obtain ⟨c₂x, hg₂, hid₂, _, _⟩ := getConversation_resolved db _ ml₂ p pid md hr
      have hcc : c₁x = c := by
        rw [h₁'] at hg₁
        exact (Option.some.inj hg₁).symm
      refine ⟨c, db, c₂x, ?_, ?_, ?_, hg₂⟩
      · unfold ConversationManager.ensureConversation
        rw [h₁]
      · unfold ConversationManager.ensureConversation
        rw [show ConversationManager.getConversationByPlatformId (some db) name platform
              ml₂ = some c₂x from hg₂]
      · rw [hid₂, ← hcc, hid₁]
  | none =>
    have h₁' : ConversationManager.getConversation (some db)
        (ConversationManager.derivedConversationId name platform) ml₁ = none := h₁
    have hkey : ConversationManager.derivedConversationId name platform
        = Conversation.createDeterministicId platform name := by
      unfold ConversationManager.derivedConversationId
      rw [if_neg hc]
    obtain ⟨conv, db₁, hcr, hconv, hdb₁⟩ :
        ∃ conv db₁, ConversationManager.createConversation (some db) name platform
            { name := some name, description := some ("Conversation for " ++ name)
              participants := some [], createdAt := none, lastActive := none
              userId := userId } t₁ (.ok ()) = .ok (conv, db₁) ∧
          conv = Conversation.new name platform
            { name := some name, description := some ("Conversation for " ++ name)
              participants := some [], createdAt := none, lastActive := none
              userId := userId } t₁ ∧
          db₁ = { namespaces := upsertNs db.namespaces (Conversation.createDeterministicId platform name) (ensureNsMeta name platform userId t₁) } := ⟨_, _, rfl, rfl, rfl⟩
    have hr₂ : resolveMeta db₁ (ConversationManager.derivedConversationId name platform)
        = some (platform, name, ensureNsMeta name platform userId t₁) := by
      rw [hdb₁, hkey]
      exact resolveMeta_upsert db _ _ platform name rfl rfl hp hn
    obtain ⟨c₂x, hg₂, hid₂, _, _⟩ :=
      getConversation_resolved db₁ _ ml₂ platform name _ hr₂
    have e₁ : ConversationManager.ensureConversation (some db) name platform userId
        ml₁ t₁ (.ok ()) = .ok (conv, db₁) := by
      unfold ConversationManager.ensureConversation
      rw [h₁]
      exact hcr
    have e₂ : ConversationManager.ensureConversation (some db₁) name platform userId
        ml₂ t₂ (.ok ()) = .ok (c₂x, db₁) := by
      unfold ConversationManager.ensureConversation
      rw [show ConversationManager.getConversationByPlatformId (some db₁) name platform
            ml₂ = some c₂x from hg₂]
    refine ⟨conv, db₁, c₂x, e₁, e₂, ?_, hg₂⟩
    rw [hid₂, hconv]
    rfl

/-- Witness for the amended C6 at a concrete non-reserved platform. -/
theorem ensureConversation_idempotent_witness :
    ("discord" : String) ≠ "consciousness" ∧ ("discord" : String) ≠ "" ∧
    ("general" : String) ≠ "" ∧
    ∃ c₁ db₁ c₂,
      ConversationManager.ensureConversation (some emptyStore) "general" "discord" none
          (.ok []) 0 (.ok ()) = .ok (c₁, db₁) ∧
      ConversationManager.ensureConversation (some db₁) "general" "discord" none
          (.ok []) 0 (.ok ()) = .ok (c₂, db₁) ∧
      c₂.id = c₁.id ∧
      ConversationManager.getConversationByPlatformId (some db₁) "general" "discord"
          (.ok []) = some c₂ :=
  ⟨by decide, by decide, by decide,
   ensureConversation_idempotent emptyStore "general" "discord" none (.ok []) (.ok [])
     0 0 (by decide) (by decide) (by decide)⟩
